import Mathlib

/-
  Shallow embedding of src/Calculate_CEQA_Requirements_and_Exemptions_Statewide.py.

  The script stores, per parcel, a SHORT (nullable small integer) attribute per
  requirement and per exemption.  A stored value is 1, 0 or NULL (Python None).
  A parcel row is modelled as an association list from attribute name to the
  stored tri-state value; an attribute absent from the list is a missing field
  (distinct from an attribute that is present and NULL).
-/

namespace CEQA

/-- Tri-state value held by a requirement or exemption attribute:
1 (meets), 0 (does not meet), NULL (Python None, insufficient data). -/
inductive Val
  | zero
  | one
  | null
deriving DecidableEq

/-- Python truthiness of a stored value: only 1 is truthy (0 and None are falsy).
Used by the source's `any(or_values)` and `all(check_requirements)`. -/
def truthy : Val → Bool
  | Val.one => true
  | _ => false

/-- A parcel row: attribute name to stored value.  Later entries written by
`setField` shadow earlier ones, mirroring an updated attribute value. -/
abbrev RowT := List (String × Val)

/-- Reading an attribute of a row; `none` means the field does not exist. -/
def getF (row : RowT) (f : String) : Option Val :=
  (row.find? (fun p => p.1 == f)).map (fun p => p.2)

/-- Writing an attribute value on a row. -/
def setField (row : RowT) (f : String) (v : Val) : RowT :=
  (f, v) :: row

/-- Python dict lookup `d[k]` as an Option (first matching key). -/
def lookupStr {α : Type} (l : List (String × α)) (k : String) : Option α :=
  (l.find? (fun p => p.1 == k)).map (fun p => p.2)

/-- The message carried by an uncaught Python KeyError on a dict access. -/
def keyErrorMsg (k : String) : String := "KeyError: " ++ k

/-- The `requirements` dictionary of the script: requirement id to the
output attribute (field) name. -/
def requirements : List (String × String) := [
  ("0.1", "urbanized_area_prc_21071_unincorporated_0_1"),
  ("2.1", "urbanized_area_prc_21071_2_1"),
  ("2.2", "urban_area_prc_21094_2_2"),
  ("2.3", "within_city_limits_2_3"),
  ("2.4", "unincorporated_2_4"),
  ("2.5", "within_mpo_2_5"),
  ("2.6", "covered_by_a_specific_plan_2_6"),
  ("2.7", "urbanized_area_or_urban_cluster_2_7"),
  ("3.1", "within_half_mile_major_transit_stop_3_1"),
  ("3.2", "within_quarter_mile_transit_corridor_3_2"),
  ("3.3", "transit_priority_area_3_3"),
  ("3.4", "within_half_mile_transit_corridor_3_4"),
  ("3.5", "within_half_mile_stop_transit_corridor_3_5"),
  ("3.6", "low_vmt_15_percent_below_regional_3_6"),
  ("3.8", "low_vehicle_travel_area_3_8"),
  ("3.9", "planned_rtp_half_mile_major_transit_stop_3_9"),
  ("3.10", "planned_rtip_half_mile_major_transit_stop_3_10"),
  ("3.11", "planned_rtip_half_mile_stop_hqtc_3_11"),
  ("3.12", "planned_rtp_half_mile_hqtc_3_12"),
  ("3.13", "planned_rtp_quarter_mile_hqtc_3_13"),
  ("3.14", "within_half_mile_rail_transit_station_or_ferry_terminal_3_14"),
  ("8.1", "wetlands_8_1"),
  ("8.2", "riparian_areas_8_2"),
  ("8.3", "special_habitats_8_3"),
  ("8.5", "rare_threatened_endangered_sp_8_5"),
  ("8.6", "prime_farmlands_or_farmlands_of_statewide_importance_8_6"),
  ("9.2", "earthquake_hazard_zone_9_2"),
  ("9.3", "wildfire_hazard_9_3"),
  ("9.4", "flood_plain_9_4"),
  ("9.5", "landslide_hazard_9_5"),
  ("9.6", "state_conservancy_9_6"),
  ("9.7", "local_coastal_zone_9_7"),
  ("9.8", "protected_area_mask_9_8")
]

/-- The `requirements_with_no_data` dictionary of the script: county name to
the requirement ids that county has no underlying data for. -/
def requirements_with_no_data : List (String × List String) := [
  ("ALL_COUNTIES", []),
  ("monterey", ["2.6", "3.9", "3.10", "3.11", "3.12", "3.13", "3.14", "9.5"]),
  ("sanbenito", ["2.6", "3.9", "3.10", "3.11", "3.12", "3.13", "3.14", "9.5"]),
  ("santacruz", ["3.10", "3.9", "3.11", "3.12", "3.13", "3.14", "9.5"]),
  ("butte", ["3.10", "3.14", "9.5"]),
  ("fresno", ["3.9", "3.10", "3.11", "3.12", "3.13", "3.14", "9.5"]),
  ("kings", ["2.6", "3.9", "3.10", "3.11", "3.12", "3.13", "3.14", "9.5"]),
  ("kern", ["3.9", "3.10", "3.11", "3.12", "3.13", "3.14", "9.5"]),
  ("merced", ["3.9", "3.10", "3.11", "3.12", "3.13", "3.14", "9.5"]),
  ("madera", ["2.6", "3.9", "3.10", "3.11", "3.12", "3.13", "3.14", "9.5"]),
  ("alameda", ["3.10", "3.11", "3.12", "3.13", "3.14"]),
  ("contracosta", ["3.10", "3.11", "3.12", "3.13", "3.14"]),
  ("marin", ["3.10", "3.11", "3.12", "3.13", "3.14", "9.5"]),
  ("napa", ["3.10", "3.11", "3.12", "3.13", "3.14", "9.5"]),
  ("sanfrancisco", ["2.6", "3.10", "3.11", "3.12", "3.13", "3.14"]),
  ("sanmateo", ["3.10", "3.11", "3.12", "3.13", "3.14"]),
  ("santaclara", ["3.10", "3.11", "3.12", "3.13", "3.14"]),
  ("solano", ["3.10", "3.11", "3.12", "3.13", "3.14", "9.5"]),
  ("sonoma", ["3.10", "3.11", "3.12", "3.13", "3.14", "9.5"]),
  ("eldorado", ["9.5"]),
  ("placer", ["9.5"]),
  ("sacramento", ["9.5"]),
  ("sutter", ["9.5"]),
  ("yolo", ["9.5"]),
  ("yuba", ["9.5"]),
  ("sandiego", ["3.9", "3.10", "3.11", "3.12", "3.13", "3.14", "9.5"]),
  ("santabarbara", ["3.9", "3.10", "3.11", "3.12", "3.13", "3.14", "9.5"]),
  ("imperial", ["3.10", "3.14", "9.5"]),
  ("losangeles", ["3.10", "3.14"]),
  ("orange", ["3.10", "3.14"]),
  ("riverside", ["3.10", "3.14"]),
  ("sanbernardino", ["3.10", "3.14"]),
  ("ventura", ["3.10", "3.14"]),
  ("sanjoaquin", ["2.6", "3.9", "3.10", "3.11", "3.12", "3.13", "3.14", "9.5"]),
  ("sanluisobispo", ["3.9", "3.10", "3.11", "3.12", "3.13", "3.14", "9.5"]),
  ("shasta", ["3.9", "3.10", "3.11", "3.12", "3.13", "3.14", "9.5"]),
  ("stanislaus", ["3.9", "3.10", "3.11", "3.12", "3.13", "3.14", "9.5"]),
  ("tulare", ["2.6", "3.9", "3.10", "3.11", "3.12", "3.13", "3.14", "9.5"]),
  ("alpine", ["2.6", "3.9", "3.10", "3.11", "3.12", "3.13", "3.14", "9.5"]),
  ("amador", ["2.6", "3.9", "3.10", "3.11", "3.12", "3.13", "3.14", "9.5"]),
  ("calaveras", ["2.6", "3.9", "3.10", "3.11", "3.12", "3.13", "3.14", "9.5"]),
  ("colusa", ["2.6", "3.9", "3.10", "3.11", "3.12", "3.13", "3.14", "9.5"]),
  ("delnorte", ["2.6", "3.9", "3.10", "3.11", "3.12", "3.13", "3.14", "9.5"]),
  ("glenn", ["2.6", "3.9", "3.10", "3.11", "3.12", "3.13", "3.14", "9.5"]),
  ("humboldt", ["2.6", "3.9", "3.10", "3.11", "3.12", "3.13", "3.14", "9.5"]),
  ("inyo", ["2.6", "3.9", "3.10", "3.11", "3.12", "3.13", "3.14", "9.5"]),
  ("lake", ["2.6", "3.9", "3.10", "3.11", "3.12", "3.13", "3.14", "9.5"]),
  ("lassen", ["2.6", "3.9", "3.10", "3.11", "3.12", "3.13", "3.14", "9.5"]),
  ("mariposa", ["2.6", "3.9", "3.10", "3.11", "3.12", "3.13", "3.14", "9.5"]),
  ("mendocino", ["3.9", "3.10", "3.11", "3.12", "3.13", "3.14", "9.5"]),
  ("modoc", ["2.6", "3.9", "3.10", "3.11", "3.12", "3.13", "3.14", "9.5"]),
  ("mono", ["3.9", "3.10", "3.11", "3.12", "3.13", "3.14", "9.5"]),
  ("nevada", ["2.6", "3.9", "3.10", "3.11", "3.12", "3.13", "3.14", "9.5"]),
  ("plumas", ["2.6", "3.9", "3.10", "3.11", "3.12", "3.13", "3.14", "9.5"]),
  ("sierra", ["2.6", "3.9", "3.10", "3.11", "3.12", "3.13", "3.14", "9.5"]),
  ("siskiyou", ["2.6", "3.9", "3.10", "3.11", "3.12", "3.13", "3.14", "9.5"]),
  ("tehama", ["2.6", "3.9", "3.10", "3.11", "3.12", "3.13", "3.14", "9.5"]),
  ("trinity", ["2.6", "3.9", "3.10", "3.11", "3.12", "3.13", "3.14", "9.5"]),
  ("tuolumne", ["2.6", "3.9", "3.10", "3.11", "3.12", "3.13", "3.14", "9.5"])
]

/-- The requirement ids that have a `calc_requirement_<id>` method on the
`RequirementFunctions` class (the getattr dispatch targets of `do_command`). -/
def registeredFunctionIds : List String := [
  "0.1", "2.1", "2.2", "2.3", "2.4", "2.5", "2.6", "2.7",
  "3.1", "3.2", "3.3", "3.4", "3.5", "3.6", "3.7", "3.8", "3.9",
  "3.10", "3.11", "3.12", "3.13", "3.14",
  "8.1", "8.2", "8.3", "8.5", "8.6",
  "9.2", "9.3", "9.4", "9.5", "9.6", "9.7", "9.8"
]

/-- A clause of an exemption definition: the script's exemptions dictionary
holds either a plain requirement id (AND clause) or a nested list of
requirement ids (OR group). -/
inductive Clause
  | single (rid : String)
  | orGroup (rids : List String)
deriving DecidableEq

/-- The `exemptions` dictionary of the script: exemption id to its clause list. -/
def exemptions : List (String × List Clause) := [
  ("21159.24", [Clause.single "2.1", Clause.single "3.1", Clause.single "8.1",
    Clause.single "8.2", Clause.single "8.3", Clause.single "8.5", Clause.single "9.2",
    Clause.single "9.3", Clause.single "9.4", Clause.single "9.5", Clause.single "9.6"]),
  ("21155.1", [Clause.single "2.5", Clause.orGroup ["3.2", "3.13", "3.14"],
    Clause.single "8.1", Clause.single "8.2", Clause.single "8.3", Clause.single "8.5",
    Clause.single "9.2", Clause.single "9.3", Clause.single "9.4", Clause.single "9.5"]),
  ("21155.2", [Clause.single "2.5", Clause.orGroup ["3.1", "3.4", "3.9", "3.12"]]),
  ("21155.4", [Clause.single "2.5", Clause.single "2.6", Clause.single "3.3"]),
  ("21094.5", [Clause.single "2.2", Clause.orGroup ["3.1", "3.5", "3.8", "3.10", "3.11"]]),
  ("65457", [Clause.single "2.6"]),
  ("15332", [Clause.single "2.3", Clause.single "8.5"]),
  ("21159.25", [Clause.single "2.4", Clause.single "2.7", Clause.single "8.5"]),
  ("21099", [Clause.single "3.3"]),
  ("21159.28", [Clause.single "2.5"]),
  ("15064.3", [Clause.orGroup ["3.1", "3.5", "3.6"]])
]

/-- Output attribute name of an exemption: "E_" plus the id with "." replaced
by "_", as built in `calculate_exemptions` (the single-character substitution
is spelled out over the character list). -/
def exemptionFieldName (e : String) : String :=
  "E_" ++ String.mk (e.data.map (fun c => if c = '.' then '_' else c))

/-- First line of the fatal missing-field message printed in
`calculate_exemptions` before `exit()`. -/
def missingPre : String := "Missing field for requirement "

/-- Second line of the fatal missing-field message: the operator guidance. -/
def missingPost : String :=
  "\nEither add it to the requirements_with_no_data dictionary (if this county is missing data for this requirement), or run the calculate_requirements function on it."

/-- Full message emitted when a referenced requirement attribute is absent
from the parcel table during exemption evaluation. -/
def missingFieldMsg (fieldName : String) : String :=
  missingPre ++ fieldName ++ missingPost

/-- Value of an OR-group clause, from `calculate_exemptions`:
`if any(or_values): 1 elif None in or_values: None else: 0`.
Python `any` is true exactly when a 1 is present (0 and None are falsy). -/
def orGroupValue (or_values : List Val) : Val :=
  if or_values.any truthy then Val.one
  else if Val.null ∈ or_values then Val.null
  else Val.zero

/-- AND combination of the clause values of one exemption together with the
running count, from `calculate_exemptions`:
`if all(check_requirements): count += 1; status = 1 elif 0 in check_requirements:
status = 0 else: status = None`. -/
def evalExemption (check_requirements : List Val) (exemptions_count : Nat) : Val × Nat :=
  if check_requirements.all truthy then (Val.one, exemptions_count + 1)
  else if Val.zero ∈ check_requirements then (Val.zero, exemptions_count)
  else (Val.null, exemptions_count)

/-- Reading the stored value of one requirement for the current row:
`requirement_field_name = requirements[requirement_id]` (uncaught KeyError if
the id is not a dict key) followed by the guarded
`row[uc.fields.index(requirement_field_name)]`, whose failure prints the
missing-field message and calls `exit()`. -/
def getReqValue (row : RowT) (rid : String) : Except String Val :=
  match lookupStr requirements rid with
  | none => Except.error (keyErrorMsg rid)
  | some fieldName =>
    match getF row fieldName with
    | some v => Except.ok v
    | none => Except.error (missingFieldMsg fieldName)

/-- Collecting the stored values of a list of requirement ids (the inner
`for or_id in requirement_id` loop); the first missing field aborts. -/
def getValues : RowT → List String → Except String (List Val)
  | _, [] => Except.ok []
  | row, rid :: rest =>
    match getReqValue row rid with
    | Except.error e => Except.error e
    | Except.ok v =>
      match getValues row rest with
      | Except.error e => Except.error e
      | Except.ok vs => Except.ok (v :: vs)

/-- Value of one clause for the current row. -/
def evalClause (row : RowT) : Clause → Except String Val
  | Clause.single rid => getReqValue row rid
  | Clause.orGroup rids =>
    match getValues row rids with
    | Except.error e => Except.error e
    | Except.ok or_values => Except.ok (orGroupValue or_values)

/-- The `check_requirements` list of one exemption: one value per clause. -/
def evalClauses : RowT → List Clause → Except String (List Val)
  | _, [] => Except.ok []
  | row, cl :: rest =>
    match evalClause row cl with
    | Except.error e => Except.error e
    | Except.ok v =>
      match evalClauses row rest with
      | Except.error e => Except.error e
      | Except.ok vs => Except.ok (v :: vs)

/-- The `for exemption_to_calculate in exemptions_to_calculate` loop over one
row: each exemption status is written into the row and the running count is
threaded through. -/
def processExemptions : RowT → Nat → List (String × List Clause) → Except String (RowT × Nat)
  | row, c, [] => Except.ok (row, c)
  | row, c, ex :: rest =>
    match evalClauses row ex.2 with
    | Except.error e => Except.error e
    | Except.ok check_requirements =>
      let sc := evalExemption check_requirements c
      processExemptions (setField row (exemptionFieldName ex.1) sc.1) sc.2 rest

/-- The update-cursor loop of `calculate_exemptions` over all parcel rows.
Each element pairs a row with its current `exemptions_count` field value. -/
def processParcels : List (RowT × Nat) → Except String (List (RowT × Nat))
  | [] => Except.ok []
  | p :: rest =>
    match processExemptions p.1 p.2 exemptions with
    | Except.error e => Except.error e
    | Except.ok q =>
      match processParcels rest with
      | Except.error e => Except.error e
      | Except.ok qs => Except.ok (q :: qs)

/-- `calculate_exemptions`: first `CalculateField` writes 0 into the
`exemptions_count` field of every row, then the cursor loop evaluates every
exemption for every row.  (The AddField preamble for exemption attributes is
immaterial here because every exemption attribute is assigned in the loop.) -/
def calculate_exemptions (parcels : List (RowT × Nat)) : Except String (List (RowT × Nat)) :=
  processParcels (parcels.map (fun p => (p.1, 0)))

/-- The per-entity driver loop at the bottom of the script restricted to its
exemption step; a Python `exit()` in one entity stops the whole run, modelled
by error propagation. -/
def processCounties : List (List (RowT × Nat)) → Except String (List (List (RowT × Nat)))
  | [] => Except.ok []
  | c :: rest =>
    match calculate_exemptions c with
    | Except.error e => Except.error e
    | Except.ok out =>
      match processCounties rest with
      | Except.error e => Except.error e
      | Except.ok outs => Except.ok (out :: outs)

/-- The parcel feature class of one county: the list of its field names
(the script's `existing_output_fields`) and its rows. -/
structure FC where
  fields : List String
  rows : List RowT

/-- `arcpy.CalculateField_management(fc, f, "None")`: every row's value for
field f becomes NULL; the field list is unchanged. -/
def calcFieldNull (fc : FC) (f : String) : FC :=
  FC.mk fc.fields (fc.rows.map (fun row => setField row f Val.null))

/-- `arcpy.AddField_management(fc, f, "SHORT")` on a field class where f is
new, plus the script's append to `existing_output_fields`: the field exists
afterwards and is NULL on every row. -/
def addField (fc : FC) (f : String) : FC :=
  FC.mk (fc.fields ++ [f]) (fc.rows.map (fun row => setField row f Val.null))

/-- One step of the no-data loop in `calculate_requirements`: if the field
exists it is recalculated as NULL, else it is added (NULL by default). -/
def maskField (fc : FC) (f : String) : FC :=
  if f ∈ fc.fields then calcFieldNull fc f else addField fc f

/-- The no-data loop of `calculate_requirements`: each no-data requirement id
is looked up in the requirements dict (KeyError if absent) and its field is
forced to NULL. -/
def maskLoop : List String → FC → Except String FC
  | [], fc => Except.ok fc
  | r :: rest, fc =>
    match lookupStr requirements r with
    | none => Except.error (keyErrorMsg r)
    | some f => maskLoop rest (maskField fc f)

/-- `RequirementFunctions.do_command`: getattr dispatch on
`calc_requirement_<id>`; an id without a registered method falls back to
`default_function`, which only logs and leaves the feature class unchanged.
The external spatial or model computation itself is an oracle parameter. -/
def do_command (oracle : String → String → FC → FC) (requirement_id : String)
    (fc : FC) (field_to_calc : String) : FC :=
  if requirement_id ∈ registeredFunctionIds then oracle requirement_id field_to_calc fc else fc

/-- The main `for requirement in requirements_to_process` loop of
`calculate_requirements`: add the field if absent, then either dispatch to
`do_command` (not masked) or leave the NULL field (masked).  The returned
list records every requirement id passed to `do_command`. -/
def mainLoop (oracle : String → String → FC → FC) (noData : List String) :
    List String → FC → List String → Except String (FC × List String)
  | [], fc, invoked => Except.ok (fc, invoked)
  | r :: rest, fc, invoked =>
    match lookupStr requirements r with
    | none => Except.error (keyErrorMsg r)
    | some f =>
      let fc1 := if f ∈ fc.fields then fc else addField fc f
      if r ∈ noData then mainLoop oracle noData rest fc1 invoked
      else mainLoop oracle noData rest (do_command oracle r fc1 f) (invoked ++ [r])

/-- `calculate_requirements` for one county: the no-data list lookup
(`requirements_with_no_data[county_name]`, a direct dict access that raises
KeyError for an unknown county, plus the `ALL_COUNTIES` list), the no-data
masking loop, then the main requirement loop.  The dev-table purge performed
at the end of the Python function is modelled separately with the
materializer.  The result pairs the final feature class with the ids sent to
`do_command`. -/
def calculate_requirements (oracle : String → String → FC → FC) (county_name : String)
    (requirements_to_process : List String) (fc : FC) : Except String (FC × List String) :=
  match lookupStr requirements_with_no_data county_name with
  | none => Except.error (keyErrorMsg county_name)
  | some noDataCounty =>
    match lookupStr requirements_with_no_data "ALL_COUNTIES" with
    | none => Except.error (keyErrorMsg "ALL_COUNTIES")
    | some allCounties =>
      match maskLoop (noDataCounty ++ allCounties) fc with
      | Except.error e => Except.error e
      | Except.ok fc1 => mainLoop oracle (noDataCounty ++ allCounties) requirements_to_process fc1 []

/-- The combined no-data requirement list of a county: the county's own list
plus the `ALL_COUNTIES` list (empty lists when the key is absent; the code
itself raises instead, see the lookup-error theorem). -/
def requirements_with_no_data_for (county_name : String) : List String :=
  ((lookupStr requirements_with_no_data county_name).getD []) ++
    ((lookupStr requirements_with_no_data "ALL_COUNTIES").getD [])

/-- Modelled from the spec: the masking predicate of section 4.1,
`is_masked(entity_id, requirement_id) = requirement_id ∈ mask[entity_id] ∪
mask[ALL_ENTITIES]` with an empty-set default for an entity that has no
masked requirements.  This definition follows the spec's words and is
compared with the code's direct dict access, which has no default. -/
def is_masked_spec (county_name requirement_id : String) : Bool :=
  ((lookupStr requirements_with_no_data county_name).getD []).contains requirement_id ||
    ((lookupStr requirements_with_no_data "ALL_COUNTIES").getD []).contains requirement_id

/-- A row of one of the two shared dev-team tables. -/
structure DevRow where
  county_name : String
  parcel_id : String
  attrs : List (String × Val)
deriving DecidableEq

/-- `delete_county_rows_from_dev_table`: the update cursor deletes every row
whose county name equals the current county's. -/
def delete_county_rows_from_dev_table (county_name : String) (table : List DevRow) : List DevRow :=
  table.filter (fun r => !(r.county_name == county_name))

/-- One entity's materialization into a shared dev table: when the table does
not yet exist, `TableToTable_conversion` creates it from the entity's rows;
when it exists, the entity's prior rows are purged (the delete call at the end
of `calculate_requirements` and of `calculate_exemptions`) and the entity's
rows are appended (`Append_management`). -/
def materialize_entity (county_name : String) (newRows : List DevRow)
    (table : Option (List DevRow)) : Option (List DevRow) :=
  match table with
  | none => some newRows
  | some rows => some (delete_county_rows_from_dev_table county_name rows ++ newRows)

/-- The field names of all requirement attributes (`requirements.values()`). -/
def requirementFieldNames : List String := requirements.map (fun p => p.2)

/-- A shared dev-team destination table with its column list. -/
structure DevTable where
  cols : List String
  rows : List RowT

/-- `arcpy.AddField_management(table, f, "SHORT")` at table level: a new
column is nullable and existing rows keep their values; a column that already
exists is left in place.  (The script's guard `field not in
arcpy.ListFields(table)` compares a string against Field objects and is
always true, so AddField is attempted for every source requirement field; the
call is benign on an already-present column, which the script's repeated
production runs over the same requirements relied on.) -/
def addFieldTable (t : DevTable) (f : String) : DevTable :=
  if f ∈ t.cols then t else DevTable.mk (t.cols ++ [f]) t.rows

/-- The schema-reconciliation loop of `create_requirements_table_dev_team`:
every requirement attribute present on the entity's parcel table is pushed
through AddField on the existing destination table. -/
def reconcile_requirement_fields (sourceFields : List String) (t : DevTable) : DevTable :=
  (sourceFields.filter (fun f => requirementFieldNames.contains f)).foldl addFieldTable t

/-- `arcpy.Append_management`: the entity's rows are appended after the
existing rows; the column list is unchanged. -/
def append_rows (t : DevTable) (newRows : List RowT) : DevTable :=
  DevTable.mk t.cols (t.rows ++ newRows)

/-- The existing-table branch of `create_requirements_table_dev_team`:
schema reconciliation, then append. -/
def create_requirements_table_append (sourceFields : List String) (newRows : List RowT)
    (t : DevTable) : DevTable :=
  append_rows (reconcile_requirement_fields sourceFields t) newRows

/-- The attribute names of all exemptions (the `exemption_fields` list built
in `create_exemptions_table_dev_team` from `exemptions.keys()`). -/
def exemptionFieldNames : List String :=
  exemptions.map (fun ex => exemptionFieldName ex.1)

/-- The schema-reconciliation loop of `create_exemptions_table_dev_team`:
every exemption attribute present on the entity's parcel table is pushed
through AddField on the existing destination table (same always-true
`ListFields` guard as on the requirements table). -/
def reconcile_exemption_fields (sourceFields : List String) (t : DevTable) : DevTable :=
  (sourceFields.filter (fun f => exemptionFieldNames.contains f)).foldl addFieldTable t

/-- The existing-table branch of `create_exemptions_table_dev_team`:
schema reconciliation, then append. -/
def create_exemptions_table_append (sourceFields : List String) (newRows : List RowT)
    (t : DevTable) : DevTable :=
  append_rows (reconcile_exemption_fields sourceFields t) newRows

/-- The `input_parcels_fc_list` run-selection input: the wildcard or an
explicit list of feature class names. -/
inductive FcSelection
  | star
  | explicitList (l : List String)

/-- Lexicographic comparison of character code sequences, the order Python's
`list.sort()` applies to strings. -/
def charListLe : List Char → List Char → Bool
  | [], _ => true
  | _ :: _, [] => false
  | a :: as, b :: bs =>
    if a.toNat < b.toNat then true
    else if b.toNat < a.toNat then false
    else charListLe as bs

/-- Python string comparison `a <= b` by code points. -/
def pyStrLe (a b : String) : Bool := charListLe a.data b.data

/-- The entity-selection resolution at the bottom of the script: the wildcard
is expanded with `arcpy.ListFeatureClasses()` and then sorted ascending with
`list.sort()`; an explicit list is used exactly as given. -/
def resolve_input_parcels_fc_list (sel : FcSelection) (listFeatureClasses : List String) : List String :=
  match sel with
  | FcSelection.star => List.insertionSort (fun a b => pyStrLe a b = true) listFeatureClasses
  | FcSelection.explicitList l => l

/-- The requirement ids referenced by a clause. -/
def clauseIds : Clause → List String
  | Clause.single rid => [rid]
  | Clause.orGroup rids => rids

/-- The attribute names of a list of requirement ids. -/
def idsFields (rids : List String) : List String :=
  rids.filterMap (lookupStr requirements)

/-- The attribute names referenced by one exemption's clause list. -/
def clausesFields (cls : List Clause) : List String :=
  (cls.map (fun cl => idsFields (clauseIds cl))).flatten

/-- The attribute names referenced by a list of exemption definitions. -/
def exsFields (exs : List (String × List Clause)) : List String :=
  (exs.map (fun ex => clausesFields ex.2)).flatten

/-- Every requirement attribute referenced by the exemptions dictionary. -/
def referencedFieldNames : List String := exsFields exemptions

/-- The masked-attribute invariant: the attribute exists on the feature class
and every parcel stores NULL in it. -/
def NullEverywhere (fc : FC) (f : String) : Prop :=
  f ∈ fc.fields ∧ ∀ row ∈ fc.rows, getF row f = some Val.null

/-- A collaborator that writes 1 into its target attribute on every parcel,
used to exercise masking dominance (the spec's "simulate a collaborator
returning 1"). -/
def oracle_one : String → String → FC → FC :=
  fun _ field_to_calc fc =>
    FC.mk fc.fields (fc.rows.map (fun row => setField row field_to_calc Val.one))

/-- A requirement pass for "monterey" (which masks "9.5") over one blank
parcel, processing the masked "9.5" and the unmasked "2.3". -/
def maskRunW : Except String (FC × List String) :=
  calculate_requirements oracle_one "monterey" ["9.5", "2.3"] (FC.mk [] [[]])

/-- The feature class produced by `maskRunW`. -/
def maskFcOutW : FC :=
  match maskRunW with
  | Except.ok p => p.1
  | Except.error _ => FC.mk [] []

/-- The requirement ids `maskRunW` sent to `do_command`. -/
def maskInvW : List String :=
  match maskRunW with
  | Except.ok p => p.2
  | Except.error _ => []

/-- A concrete parcel row carrying every requirement attribute referenced by
the exemptions dictionary, with value 1. -/
def rowAllOne : RowT := [
  ("urbanized_area_prc_21071_2_1", Val.one),
  ("within_half_mile_major_transit_stop_3_1", Val.one),
  ("wetlands_8_1", Val.one),
  ("riparian_areas_8_2", Val.one),
  ("special_habitats_8_3", Val.one),
  ("rare_threatened_endangered_sp_8_5", Val.one),
  ("earthquake_hazard_zone_9_2", Val.one),
  ("wildfire_hazard_9_3", Val.one),
  ("flood_plain_9_4", Val.one),
  ("landslide_hazard_9_5", Val.one),
  ("state_conservancy_9_6", Val.one),
  ("within_mpo_2_5", Val.one),
  ("within_quarter_mile_transit_corridor_3_2", Val.one),
  ("planned_rtp_quarter_mile_hqtc_3_13", Val.one),
  ("within_half_mile_rail_transit_station_or_ferry_terminal_3_14", Val.one),
  ("within_half_mile_transit_corridor_3_4", Val.one),
  ("planned_rtp_half_mile_major_transit_stop_3_9", Val.one),
  ("planned_rtp_half_mile_hqtc_3_12", Val.one),
  ("covered_by_a_specific_plan_2_6", Val.one),
  ("transit_priority_area_3_3", Val.one),
  ("urban_area_prc_21094_2_2", Val.one),
  ("within_half_mile_stop_transit_corridor_3_5", Val.one),
  ("low_vehicle_travel_area_3_8", Val.one),
  ("planned_rtip_half_mile_major_transit_stop_3_10", Val.one),
  ("planned_rtip_half_mile_stop_hqtc_3_11", Val.one),
  ("within_city_limits_2_3", Val.one),
  ("unincorporated_2_4", Val.one),
  ("urbanized_area_or_urban_cluster_2_7", Val.one),
  ("low_vmt_15_percent_below_regional_3_6", Val.one)
]

/-- The output of the exemption pass on the single all-one parcel above,
started with a stale count of 7. -/
def outAllOne : List (RowT × Nat) :=
  (calculate_exemptions [(rowAllOne, 7)]).toOption.getD []

/-- The single output parcel of `outAllOne`. -/
def outAllOneHead : RowT × Nat := outAllOne.getD 0 ([], 0)

/- ------------------------------------------------------------------ -/
/- Helper lemmas                                                       -/
/- ------------------------------------------------------------------ -/

theorem truthy_eq_one {v : Val} : truthy v = true ↔ v = Val.one := by
  cases v <;> simp [truthy]

theorem all_truthy (l : List Val) : l.all truthy = true ↔ ∀ v ∈ l, v = Val.one := by
  simp [List.all_eq_true, truthy_eq_one]

theorem any_truthy (l : List Val) : l.any truthy = true ↔ Val.one ∈ l := by
  simp [List.any_eq_true, truthy_eq_one]

theorem getF_setField (row : RowT) (f g : String) (v : Val) :
    getF (setField row f v) g = if g = f then some v else getF row g := by
  by_cases h : g = f
  · subst h
    simp [getF, setField, List.find?_cons_of_pos]
  · have hb : (f == g) = false := by
      simp only [beq_eq_false_iff_ne]
      exact fun hh => h hh.symm
    simp [getF, setField, List.find?_cons, hb, h]

theorem evalExemption_snd (check : List Val) (c : Nat) :
    (evalExemption check c).2 = c + (if (evalExemption check c).1 = Val.one then 1 else 0) := by
  unfold evalExemption
  by_cases hb : check.all truthy = true
  · simp [hb]
  · by_cases hz : Val.zero ∈ check <;> simp [hb, hz]

theorem processExemptions_getF (exs : List (String × List Clause)) :
    ∀ row c out, processExemptions row c exs = Except.ok out →
    ∀ g, (∀ ex ∈ exs, exemptionFieldName ex.1 ≠ g) → getF out.1 g = getF row g := by
  induction exs with
  | nil =>
    intro row c out h g _
    cases h
    rfl
  | cons ex rest ih =>
    intro row c out h g hg
    cases hev : evalClauses row ex.2 with
    | error e => simp [processExemptions, hev] at h
    | ok check =>
      simp only [processExemptions, hev] at h
      have hrec := ih _ _ _ h g (fun ex2 hm => hg ex2 (List.mem_cons_of_mem _ hm))
      rw [hrec, getF_setField, if_neg]
      exact fun hgf => hg ex (List.mem_cons_self _ _) hgf.symm

theorem processExemptions_count (exs : List (String × List Clause)) :
    ∀ row c out, processExemptions row c exs = Except.ok out →
    (exs.map (fun ex => exemptionFieldName ex.1)).Nodup →
    out.2 = c + exs.countP
      (fun ex => decide (getF out.1 (exemptionFieldName ex.1) = some Val.one)) := by
  induction exs with
  | nil =>
    intro row c out h _
    cases h
    simp
  | cons ex rest ih =>
    intro row c out h hnd
    rw [List.map_cons, List.nodup_cons] at hnd
    obtain ⟨hnotin, hnd2⟩ := hnd
    cases hev : evalClauses row ex.2 with
    | error e => simp [processExemptions, hev] at h
    | ok check =>
      simp only [processExemptions, hev] at h
      have hcount := ih _ _ _ h hnd2
      have hne : ∀ ex2 ∈ rest, exemptionFieldName ex2.1 ≠ exemptionFieldName ex.1 := by
        intro ex2 hm heq
        exact hnotin (heq ▸ List.mem_map_of_mem (fun e => exemptionFieldName e.1) hm)
      have hout_fn : getF out.1 (exemptionFieldName ex.1)
          = some (evalExemption check c).1 := by
        have hpres := processExemptions_getF rest _ _ _ h (exemptionFieldName ex.1) hne
        rw [hpres, getF_setField, if_pos rfl]
      rw [hcount, evalExemption_snd check c, List.countP_cons, hout_fn]
      by_cases hs1 : (evalExemption check c).1 = Val.one
      · simp [hs1]
        omega
      · simp [hs1]

theorem processParcels_mem (parcels : List (RowT × Nat)) :
    ∀ out, processParcels parcels = Except.ok out →
    ∀ p ∈ out, ∃ q ∈ parcels, processExemptions q.1 q.2 exemptions = Except.ok p := by
  induction parcels with
  | nil =>
    intro out h p hp
    cases h
    simp at hp
  | cons q rest ih =>
    intro out h p hp
    cases hq : processExemptions q.1 q.2 exemptions with
    | error e => simp [processParcels, hq] at h
    | ok q2 =>
      cases hr : processParcels rest with
      | error e => simp [processParcels, hq, hr] at h
      | ok outs =>
        simp only [processParcels, hq, hr] at h
        cases h
        rcases List.mem_cons.1 hp with h1 | h1
        · exact ⟨q, List.mem_cons_self _ _, h1 ▸ hq⟩
        · obtain ⟨q3, hq3, hq3p⟩ := ih outs hr p h1
          exact ⟨q3, List.mem_cons_of_mem _ hq3, hq3p⟩

theorem lookupStr_mem_snd {α : Type} (l : List (String × α)) (k : String) (v : α)
    (h : lookupStr l k = some v) : v ∈ l.map (fun p => p.2) := by
  unfold lookupStr at h
  cases hf : l.find? (fun p => p.1 == k) with
  | none => rw [hf] at h; cases h
  | some q =>
    rw [hf] at h
    have hq : q ∈ l := List.mem_of_find?_eq_some hf
    have : v = q.2 := by
      simpa using h.symm
    exact this ▸ List.mem_map_of_mem _ hq

theorem idsFields_sub_requirements (rids : List String) :
    ∀ f ∈ idsFields rids, f ∈ requirements.map (fun p => p.2) := by
  intro f hf
  obtain ⟨rid, _, hl⟩ := List.mem_filterMap.1 hf
  exact lookupStr_mem_snd _ _ _ hl

theorem exsFields_sub_requirements (exs : List (String × List Clause)) :
    ∀ f ∈ exsFields exs, f ∈ requirements.map (fun p => p.2) := by
  intro f hf
  simp only [exsFields, List.mem_flatten, List.mem_map] at hf
  obtain ⟨l, ⟨ex, hex, rfl⟩, hfl⟩ := hf
  simp only [clausesFields, List.mem_flatten, List.mem_map] at hfl
  obtain ⟨l2, ⟨cl, hcl, rfl⟩, hfl2⟩ := hfl
  exact idsFields_sub_requirements _ f hfl2

theorem getValues_error (row : RowT) : ∀ rids : List String,
    (∀ rid ∈ rids, (lookupStr requirements rid).isSome = true) →
    (∃ f ∈ idsFields rids, getF row f = none) →
    ∃ f ∈ idsFields rids, getF row f = none
      ∧ getValues row rids = Except.error (missingFieldMsg f) := by
  intro rids
  induction rids with
  | nil =>
    rintro _ ⟨f, hf, _⟩
    simp [idsFields] at hf
  | cons rid rest ih =>
    rintro hdict ⟨f, hf, hmiss⟩
    obtain ⟨f0, hf0⟩ := Option.isSome_iff_exists.1 (hdict rid (List.mem_cons_self _ _))
    have hids : idsFields (rid :: rest) = f0 :: idsFields rest := by
      simp [idsFields, List.filterMap_cons, hf0]
    by_cases hmiss0 : getF row f0 = none
    · refine ⟨f0, ?_, hmiss0, ?_⟩
      · rw [hids]; exact List.mem_cons_self _ _
      · simp [getValues, getReqValue, hf0, hmiss0]
    · have hfrest : f ∈ idsFields rest := by
        rw [hids] at hf
        rcases List.mem_cons.1 hf with h1 | h1
        · exact absurd (h1 ▸ hmiss) hmiss0
        · exact h1
      obtain ⟨g, hg, hgmiss, hgval⟩ :=
        ih (fun r hr => hdict r (List.mem_cons_of_mem _ hr)) ⟨f, hfrest, hmiss⟩
      refine ⟨g, by rw [hids]; exact List.mem_cons_of_mem _ hg, hgmiss, ?_⟩
      obtain ⟨v, hv⟩ := Option.ne_none_iff_exists.1 hmiss0
      simp [getValues, getReqValue, hf0, ← hv, hgval]

theorem getValues_ok (row : RowT) : ∀ rids : List String,
    (∀ rid ∈ rids, (lookupStr requirements rid).isSome = true) →
    (∀ f ∈ idsFields rids, getF row f ≠ none) →
    ∃ vs, getValues row rids = Except.ok vs := by
  intro rids
  induction rids with
  | nil => intro _ _; exact ⟨[], rfl⟩
  | cons rid rest ih =>
    intro hdict hpres
    obtain ⟨f0, hf0⟩ := Option.isSome_iff_exists.1 (hdict rid (List.mem_cons_self _ _))
    have hids : idsFields (rid :: rest) = f0 :: idsFields rest := by
      simp [idsFields, List.filterMap_cons, hf0]
    have hf0p : getF row f0 ≠ none := by
      apply hpres
      rw [hids]
      exact List.mem_cons_self _ _
    obtain ⟨v, hv⟩ := Option.ne_none_iff_exists.1 hf0p
    obtain ⟨vs, hvs⟩ := ih (fun r hr => hdict r (List.mem_cons_of_mem _ hr))
      (fun g hg => hpres g (by rw [hids]; exact List.mem_cons_of_mem _ hg))
    exact ⟨v :: vs, by simp [getValues, getReqValue, hf0, ← hv, hvs]⟩

theorem evalClause_error (row : RowT) (cl : Clause)
    (hdict : ∀ rid ∈ clauseIds cl, (lookupStr requirements rid).isSome = true)
    (h : ∃ f ∈ idsFields (clauseIds cl), getF row f = none) :
    ∃ f ∈ idsFields (clauseIds cl), getF row f = none
      ∧ evalClause row cl = Except.error (missingFieldMsg f) := by
  cases cl with
  | single rid =>
    obtain ⟨f, hf, hmiss⟩ := h
    obtain ⟨f0, hf0⟩ := Option.isSome_iff_exists.1 (hdict rid (by simp [clauseIds]))
    have hff0 : f = f0 := by
      simp [idsFields, clauseIds, List.filterMap_cons, hf0] at hf
      exact hf
    subst hff0
    refine ⟨f, by simp [idsFields, clauseIds, hf0], hmiss, ?_⟩
    simp [evalClause, getReqValue, hf0, hmiss]
  | orGroup rids =>
    obtain ⟨f, hfm, hfmiss, hgv⟩ := getValues_error row rids hdict h
    exact ⟨f, hfm, hfmiss, by simp [evalClause, hgv]⟩

theorem evalClause_ok (row : RowT) (cl : Clause)
    (hdict : ∀ rid ∈ clauseIds cl, (lookupStr requirements rid).isSome = true)
    (hpres : ∀ f ∈ idsFields (clauseIds cl), getF row f ≠ none) :
    ∃ v, evalClause row cl = Except.ok v := by
  cases cl with
  | single rid =>
    obtain ⟨f0, hf0⟩ := Option.isSome_iff_exists.1 (hdict rid (by simp [clauseIds]))
    have hf0p : getF row f0 ≠ none := hpres f0 (by simp [idsFields, clauseIds, hf0])
    obtain ⟨v, hv⟩ := Option.ne_none_iff_exists.1 hf0p
    exact ⟨v, by simp [evalClause, getReqValue, hf0, ← hv]⟩
  | orGroup rids =>
    obtain ⟨vs, hvs⟩ := getValues_ok row rids hdict hpres
    exact ⟨orGroupValue vs, by simp [evalClause, hvs]⟩

theorem evalClauses_error (row : RowT) : ∀ cls : List Clause,
    (∀ cl ∈ cls, ∀ rid ∈ clauseIds cl, (lookupStr requirements rid).isSome = true) →
    (∃ f ∈ clausesFields cls, getF row f = none) →
    ∃ f ∈ clausesFields cls, getF row f = none
      ∧ evalClauses row cls = Except.error (missingFieldMsg f) := by
  intro cls
  induction cls with
  | nil =>
    rintro _ ⟨f, hf, _⟩
    simp [clausesFields] at hf
  | cons cl rest ih =>
    rintro hdict ⟨f, hf, hmiss⟩
    have hsplit : clausesFields (cl :: rest)
        = idsFields (clauseIds cl) ++ clausesFields rest := by
      simp [clausesFields]
    by_cases hc : ∃ g ∈ idsFields (clauseIds cl), getF row g = none
    · obtain ⟨g, hg, hgmiss, hgerr⟩ :=
        evalClause_error row cl (hdict cl (List.mem_cons_self _ _)) hc
      refine ⟨g, ?_, hgmiss, ?_⟩
      · rw [hsplit]; exact List.mem_append_left _ hg
      · simp [evalClauses, hgerr]
    · push_neg at hc
      obtain ⟨v, hv⟩ := evalClause_ok row cl (hdict cl (List.mem_cons_self _ _)) hc
      have hfrest : f ∈ clausesFields rest := by
        rw [hsplit] at hf
        rcases List.mem_append.1 hf with h1 | h1
        · exact absurd hmiss (hc f h1)
        · exact h1
      obtain ⟨g, hg, hgmiss, hgerr⟩ :=
        ih (fun c2 hc2 => hdict c2 (List.mem_cons_of_mem _ hc2)) ⟨f, hfrest, hmiss⟩
      refine ⟨g, ?_, hgmiss, ?_⟩
      · rw [hsplit]; exact List.mem_append_right _ hg
      · simp [evalClauses, hv, hgerr]

theorem evalClauses_ok (row : RowT) : ∀ cls : List Clause,
    (∀ cl ∈ cls, ∀ rid ∈ clauseIds cl, (lookupStr requirements rid).isSome = true) →
    (∀ f ∈ clausesFields cls, getF row f ≠ none) →
    ∃ vs, evalClauses row cls = Except.ok vs := by
  intro cls
  induction cls with
  | nil => intro _ _; exact ⟨[], rfl⟩
  | cons cl rest ih =>
    intro hdict hpres
    have hsplit : clausesFields (cl :: rest)
        = idsFields (clauseIds cl) ++ clausesFields rest := by
      simp [clausesFields]
    obtain ⟨v, hv⟩ := evalClause_ok row cl (hdict cl (List.mem_cons_self _ _))
      (fun g hg => hpres g (by rw [hsplit]; exact List.mem_append_left _ hg))
    obtain ⟨vs, hvs⟩ := ih (fun c2 hc2 => hdict c2 (List.mem_cons_of_mem _ hc2))
      (fun g hg => hpres g (by rw [hsplit]; exact List.mem_append_right _ hg))
    exact ⟨v :: vs, by simp [evalClauses, hv, hvs]⟩

theorem processExemptions_error_of_missing (exs : List (String × List Clause)) :
    ∀ row c,
    (∀ ex ∈ exs, ∀ cl ∈ ex.2, ∀ rid ∈ clauseIds cl, (lookupStr requirements rid).isSome = true) →
    (∀ ex ∈ exs, exemptionFieldName ex.1 ∉ requirements.map (fun p => p.2)) →
    (∃ f ∈ exsFields exs, getF row f = none) →
    ∃ f ∈ exsFields exs, getF row f = none
      ∧ processExemptions row c exs = Except.error (missingFieldMsg f) := by
  induction exs with
  | nil =>
    rintro row c _ _ ⟨f, hf, _⟩
    simp [exsFields] at hf
  | cons ex rest ih =>
    rintro row c hdict hdisj ⟨f, hf, hmiss⟩
    have hsplit : exsFields (ex :: rest) = clausesFields ex.2 ++ exsFields rest := by
      simp [exsFields]
    by_cases hc : ∃ g ∈ clausesFields ex.2, getF row g = none
    · obtain ⟨g, hg, hgmiss, hgerr⟩ :=
        evalClauses_error row ex.2 (hdict ex (List.mem_cons_self _ _)) hc
      refine ⟨g, ?_, hgmiss, ?_⟩
      · rw [hsplit]; exact List.mem_append_left _ hg
      · simp [processExemptions, hgerr]
    · push_neg at hc
      obtain ⟨check, hcheck⟩ := evalClauses_ok row ex.2 (hdict ex (List.mem_cons_self _ _)) hc
      have hfrest : f ∈ exsFields rest := by
        rw [hsplit] at hf
        rcases List.mem_append.1 hf with h1 | h1
        · exact absurd hmiss (hc f h1)
        · exact h1
      have hfreq : f ∈ requirements.map (fun p => p.2) :=
        exsFields_sub_requirements rest f hfrest
      have hEnotf : exemptionFieldName ex.1 ≠ f :=
        fun he => (hdisj ex (List.mem_cons_self _ _)) (he ▸ hfreq)
      have hmiss2 : getF (setField row (exemptionFieldName ex.1)
          (evalExemption check c).1) f = none := by
        rw [getF_setField, if_neg (fun hfe => hEnotf hfe.symm)]
        exact hmiss
      obtain ⟨g, hg, hgmiss, hgerr⟩ :=
        ih (setField row (exemptionFieldName ex.1) (evalExemption check c).1)
          ((evalExemption check c).2)
          (fun e2 he2 => hdict e2 (List.mem_cons_of_mem _ he2))
          (fun e2 he2 => hdisj e2 (List.mem_cons_of_mem _ he2))
          ⟨f, hfrest, hmiss2⟩
      have hgreq : g ∈ requirements.map (fun p => p.2) :=
        exsFields_sub_requirements rest g hg
      have hEnotg : exemptionFieldName ex.1 ≠ g :=
        fun he => (hdisj ex (List.mem_cons_self _ _)) (he ▸ hgreq)
      refine ⟨g, ?_, ?_, ?_⟩
      · rw [hsplit]; exact List.mem_append_right _ hg
      · rw [getF_setField, if_neg (fun hfe => hEnotg hfe.symm)] at hgmiss
        exact hgmiss
      · simp [processExemptions, hcheck, hgerr]

theorem processExemptions_ok_of_present (exs : List (String × List Clause)) :
    ∀ row c,
    (∀ ex ∈ exs, ∀ cl ∈ ex.2, ∀ rid ∈ clauseIds cl, (lookupStr requirements rid).isSome = true) →
    (∀ f ∈ exsFields exs, getF row f ≠ none) →
    ∃ out, processExemptions row c exs = Except.ok out := by
  induction exs with
  | nil => intro row c _ _; exact ⟨(row, c), rfl⟩
  | cons ex rest ih =>
    intro row c hdict hpres
    have hsplit : exsFields (ex :: rest) = clausesFields ex.2 ++ exsFields rest := by
      simp [exsFields]
    obtain ⟨check, hcheck⟩ := evalClauses_ok row ex.2 (hdict ex (List.mem_cons_self _ _))
      (fun g hg => hpres g (by rw [hsplit]; exact List.mem_append_left _ hg))
    have hpres2 : ∀ f ∈ exsFields rest,
        getF (setField row (exemptionFieldName ex.1) (evalExemption check c).1) f ≠ none := by
      intro f hf
      rw [getF_setField]
      by_cases hfe : f = exemptionFieldName ex.1
      · simp [hfe]
      · rw [if_neg hfe]
        exact hpres f (by rw [hsplit]; exact List.mem_append_right _ hf)
    obtain ⟨out, hout⟩ :=
      ih (setField row (exemptionFieldName ex.1) (evalExemption check c).1)
        ((evalExemption check c).2)
        (fun e2 he2 => hdict e2 (List.mem_cons_of_mem _ he2)) hpres2
    exact ⟨out, by simp [processExemptions, hcheck, hout]⟩

theorem processParcels_error_of_missing : ∀ parcels : List (RowT × Nat),
    (∃ p ∈ parcels, ∃ f ∈ referencedFieldNames, getF p.1 f = none) →
    ∃ f ∈ referencedFieldNames, (∃ p ∈ parcels, getF p.1 f = none)
      ∧ processParcels parcels = Except.error (missingFieldMsg f) := by
  have hdict : ∀ ex ∈ exemptions, ∀ cl ∈ ex.2, ∀ rid ∈ clauseIds cl,
      (lookupStr requirements rid).isSome = true := by decide
  have hdisj : ∀ ex ∈ exemptions,
      exemptionFieldName ex.1 ∉ requirements.map (fun p => p.2) := by decide
  intro parcels
  induction parcels with
  | nil =>
    rintro ⟨p, hp, _⟩
    simp at hp
  | cons p rest ih =>
    rintro ⟨q, hq, f, hf, hmiss⟩
    by_cases hp : ∃ g ∈ referencedFieldNames, getF p.1 g = none
    · obtain ⟨g, hg, hgmiss, hgerr⟩ :=
        processExemptions_error_of_missing exemptions p.1 p.2 hdict hdisj hp
      exact ⟨g, hg, ⟨p, List.mem_cons_self _ _, hgmiss⟩, by simp [processParcels, hgerr]⟩
    · push_neg at hp
      obtain ⟨out, hout⟩ := processExemptions_ok_of_present exemptions p.1 p.2 hdict
        (fun g hg => hp g hg)
      have hqrest : q ∈ rest := by
        rcases List.mem_cons.1 hq with h1 | h1
        · exact absurd hmiss (h1 ▸ hp f hf)
        · exact h1
      obtain ⟨g, hg, ⟨q2, hq2, hq2m⟩, hgerr⟩ := ih ⟨q, hqrest, f, hf, hmiss⟩
      exact ⟨g, hg, ⟨q2, List.mem_cons_of_mem _ hq2, hq2m⟩,
        by simp [processParcels, hout, hgerr]⟩

theorem lookupStr_cons {α : Type} (q : String × α) (l : List (String × α)) (k : String) :
    lookupStr (q :: l) k = if q.1 = k then some q.2 else lookupStr l k := by
  unfold lookupStr
  by_cases hb : q.1 = k
  · rw [List.find?_cons_of_pos _ (by simp [hb]), if_pos hb]
    rfl
  · rw [List.find?_cons_of_neg _ (by simp [hb]), if_neg hb]

theorem lookupStr_values_ne {α : Type} : ∀ (l : List (String × α)) (k1 k2 : String) (v1 v2 : α),
    (l.map (fun p => p.2)).Nodup → lookupStr l k1 = some v1 → lookupStr l k2 = some v2 →
    k1 ≠ k2 → v1 ≠ v2 := by
  intro l
  induction l with
  | nil =>
    intro k1 k2 v1 v2 _ h1
    simp [lookupStr] at h1
  | cons q rest ih =>
    intro k1 k2 v1 v2 hnd h1 h2 hk
    rw [List.map_cons, List.nodup_cons] at hnd
    obtain ⟨hq, hnd2⟩ := hnd
    rw [lookupStr_cons] at h1 h2
    by_cases b1 : q.1 = k1
    · by_cases b2 : q.1 = k2
      · exact absurd (b1.symm.trans b2) hk
      · rw [if_pos b1] at h1
        rw [if_neg b2] at h2
        have hv1 : v1 = q.2 := by simpa using h1.symm
        have hv2mem : v2 ∈ rest.map (fun p => p.2) := lookupStr_mem_snd rest k2 v2 h2
        intro he
        apply hq
        rw [hv1] at he
        rw [he]
        exact hv2mem
    · by_cases b2 : q.1 = k2
      · rw [if_neg b1] at h1
        rw [if_pos b2] at h2
        have hv2 : v2 = q.2 := by simpa using h2.symm
        have hv1mem : v1 ∈ rest.map (fun p => p.2) := lookupStr_mem_snd rest k1 v1 h1
        intro he
        apply hq
        rw [hv2] at he
        rw [← he]
        exact hv1mem
      · rw [if_neg b1] at h1
        rw [if_neg b2] at h2
        exact ih k1 k2 v1 v2 hnd2 h1 h2 hk

theorem rows_setField_null (rows : List RowT) (g f : String)
    (h : ∀ row ∈ rows, getF row f = some Val.null ∨ f = g) :
    ∀ row ∈ rows.map (fun row => setField row g Val.null), getF row f = some Val.null := by
  intro row hrow
  obtain ⟨row0, hrow0, rfl⟩ := List.mem_map.1 hrow
  rw [getF_setField]
  by_cases hfg : f = g
  · rw [if_pos hfg]
  · rw [if_neg hfg]
    rcases h row0 hrow0 with h1 | h1
    · exact h1
    · exact absurd h1 hfg

theorem maskField_establishes (fc : FC) (f : String) : NullEverywhere (maskField fc f) f := by
  unfold maskField
  by_cases hf : f ∈ fc.fields
  · rw [if_pos hf]
    exact ⟨hf, rows_setField_null fc.rows f f (fun row hrow => Or.inr rfl)⟩
  · rw [if_neg hf]
    exact ⟨List.mem_append_right _ (by simp),
      rows_setField_null fc.rows f f (fun row hrow => Or.inr rfl)⟩

theorem maskField_preserves (fc : FC) (g f : String) (h : NullEverywhere fc f) :
    NullEverywhere (maskField fc g) f := by
  obtain ⟨hmem, hrows⟩ := h
  unfold maskField
  by_cases hg : g ∈ fc.fields
  · rw [if_pos hg]
    exact ⟨hmem, rows_setField_null fc.rows g f (fun row hrow => Or.inl (hrows row hrow))⟩
  · rw [if_neg hg]
    exact ⟨List.mem_append_left _ hmem,
      rows_setField_null fc.rows g f (fun row hrow => Or.inl (hrows row hrow))⟩

theorem addField_preserves (fc : FC) (g f : String) (h : NullEverywhere fc f) :
    NullEverywhere (addField fc g) f := by
  obtain ⟨hmem, hrows⟩ := h
  exact ⟨List.mem_append_left _ hmem,
    rows_setField_null fc.rows g f (fun row hrow => Or.inl (hrows row hrow))⟩

theorem maskLoop_preserves : ∀ (L : List String) (fc fc1 : FC),
    maskLoop L fc = Except.ok fc1 → ∀ f, NullEverywhere fc f → NullEverywhere fc1 f := by
  intro L
  induction L with
  | nil =>
    intro fc fc1 h f hN
    cases h
    exact hN
  | cons r rest ih =>
    intro fc fc1 h f hN
    cases hl : lookupStr requirements r with
    | none => simp [maskLoop, hl] at h
    | some g =>
      simp only [maskLoop, hl] at h
      exact ih _ _ h f (maskField_preserves fc g f hN)

theorem maskLoop_establishes : ∀ (L : List String) (fc fc1 : FC),
    maskLoop L fc = Except.ok fc1 →
    ∀ r ∈ L, ∀ f, lookupStr requirements r = some f → NullEverywhere fc1 f := by
  intro L
  induction L with
  | nil =>
    intro fc fc1 _ r hr
    simp at hr
  | cons r0 rest ih =>
    intro fc fc1 h r hr f hf
    cases hl : lookupStr requirements r0 with
    | none => simp [maskLoop, hl] at h
    | some g =>
      simp only [maskLoop, hl] at h
      rcases List.mem_cons.1 hr with h1 | h1
      · subst h1
        have hgf : g = f := by
          have h2 := hl.symm.trans hf
          injection h2
        subst hgf
        exact maskLoop_preserves rest _ _ h g (maskField_establishes fc g)
      · exact ih _ _ h r h1 f hf

theorem do_command_preserves (oracle : String → String → FC → FC)
    (hOF : ∀ rid g fc2 x, x ∈ fc2.fields → x ∈ (oracle rid g fc2).fields)
    (hFr : ∀ rid g fc2 h2, h2 ≠ g →
      (oracle rid g fc2).rows.map (fun row => getF row h2)
        = fc2.rows.map (fun row => getF row h2))
    (rid g f : String) (fc : FC) (hfg : f ≠ g) (h : NullEverywhere fc f) :
    NullEverywhere (do_command oracle rid fc g) f := by
  unfold do_command
  by_cases hreg : rid ∈ registeredFunctionIds
  · rw [if_pos hreg]
    obtain ⟨hmem, hrows⟩ := h
    refine ⟨hOF rid g fc f hmem, ?_⟩
    intro row hrow
    have hin : getF row f ∈ (oracle rid g fc).rows.map (fun row => getF row f) :=
      List.mem_map_of_mem _ hrow
    rw [hFr rid g fc f hfg] at hin
    obtain ⟨row0, hrow0, heq⟩ := List.mem_map.1 hin
    rw [← heq]
    exact hrows row0 hrow0
  · rw [if_neg hreg]
    exact h

theorem mainLoop_preserves (oracle : String → String → FC → FC)
    (hOF : ∀ rid g fc2 x, x ∈ fc2.fields → x ∈ (oracle rid g fc2).fields)
    (hFr : ∀ rid g fc2 h2, h2 ≠ g →
      (oracle rid g fc2).rows.map (fun row => getF row h2)
        = fc2.rows.map (fun row => getF row h2))
    (noData : List String) (f : String)
    (hne : ∀ r2 f2, r2 ∉ noData → lookupStr requirements r2 = some f2 → f2 ≠ f) :
    ∀ (L : List String) (fc : FC) (inv : List String) (fcOut : FC) (invOut : List String),
    mainLoop oracle noData L fc inv = Except.ok (fcOut, invOut) →
    NullEverywhere fc f →
    NullEverywhere fcOut f ∧ ∀ x ∈ invOut, x ∈ inv ∨ x ∉ noData := by
  intro L
  induction L with
  | nil =>
    intro fc inv fcOut invOut h hN
    simp only [mainLoop] at h
    injection h with h2
    injection h2 with h3 h4
    subst h3
    subst h4
    exact ⟨hN, fun x hx => Or.inl hx⟩
  | cons r rest ih =>
    intro fc inv fcOut invOut h hN
    cases hl : lookupStr requirements r with
    | none => simp [mainLoop, hl] at h
    | some g =>
      simp only [mainLoop, hl] at h
      have hN1 : NullEverywhere (if g ∈ fc.fields then fc else addField fc g) f := by
        by_cases hmem : g ∈ fc.fields
        · rw [if_pos hmem]
          exact hN
        · rw [if_neg hmem]
          exact addField_preserves fc g f hN
      by_cases hmask : r ∈ noData
      · rw [if_pos hmask] at h
        exact ih _ _ _ _ h hN1
      · rw [if_neg hmask] at h
        have hgf : f ≠ g := fun he => (hne r g hmask hl) he.symm
        obtain ⟨hNout, hinv⟩ := ih _ _ _ _ h
          (do_command_preserves oracle hOF hFr r g f _ hgf hN1)
        refine ⟨hNout, ?_⟩
        intro x hx
        rcases hinv x hx with hx1 | hx1
        · rcases List.mem_append.1 hx1 with h2 | h2
          · exact Or.inl h2
          · have hxr : x = r := by simpa using h2
            exact Or.inr (hxr ▸ hmask)
        · exact Or.inr hx1

/- ------------------------------------------------------------------ -/
/- Claim theorems                                                      -/
/- ------------------------------------------------------------------ -/

/-- Claim C1: AND combination of an exemption's clause values `u1..un`: the
exemption evaluates to 1 exactly when every clause value is 1 (and only then
is the running count incremented, by exactly 1); to 0 when some clause value
is 0 (even with other clauses unknown); and to unknown otherwise (no 0 and at
least one unknown). -/
theorem exemption_and_combination (us : List Val) (c : Nat) :
    ((∀ u ∈ us, u = Val.one) → evalExemption us c = (Val.one, c + 1))
    ∧ (Val.zero ∈ us → evalExemption us c = (Val.zero, c))
    ∧ ((Val.zero ∉ us ∧ Val.null ∈ us) → evalExemption us c = (Val.null, c))
    ∧ ((evalExemption us c).2 = c + 1 ↔ ∀ u ∈ us, u = Val.one) := by
  refine ⟨?_, ?_, ?_, ?_, ?_⟩
  · intro h
    simp [evalExemption, (all_truthy us).2 h]
  · intro h
    have hall : ¬ (us.all truthy = true) := by
      intro hb
      exact absurd ((all_truthy us).1 hb Val.zero h) (by simp)
    simp [evalExemption, hall, h]
  · rintro ⟨h0, hn⟩
    have hall : ¬ (us.all truthy = true) := by
      intro hb
      exact absurd ((all_truthy us).1 hb Val.null hn) (by simp)
    simp [evalExemption, hall, h0]
  · intro h2
    by_cases hb : us.all truthy = true
    · exact (all_truthy us).1 hb
    · exfalso
      simp only [evalExemption, hb, if_false] at h2
      by_cases hz : Val.zero ∈ us <;> simp [hz] at h2
  · intro h
    simp [evalExemption, (all_truthy us).2 h]

/-- Claim C1 witness: all clause values 1 gives exemption 1 and count 5 + 1. -/
theorem exemption_and_combination_witness :
    evalExemption [Val.one, Val.one] 5 = (Val.one, 6) :=
  (exemption_and_combination [Val.one, Val.one] 5).1 (by decide)

/-- Claim C2: an OR-group clause with member values `v1..vk` evaluates to 1
if some member is 1; otherwise to unknown if some member is unknown;
otherwise (all members 0) to 0. -/
theorem or_group_clause_value (vs : List Val) :
    (Val.one ∈ vs → orGroupValue vs = Val.one)
    ∧ ((Val.one ∉ vs ∧ Val.null ∈ vs) → orGroupValue vs = Val.null)
    ∧ ((∀ v ∈ vs, v = Val.zero) → orGroupValue vs = Val.zero) := by
  refine ⟨?_, ?_, ?_⟩
  · intro h
    simp [orGroupValue, (any_truthy vs).2 h]
  · rintro ⟨h1, hn⟩
    have hany : ¬ (vs.any truthy = true) := fun hb => h1 ((any_truthy vs).1 hb)
    simp [orGroupValue, hany, hn]
  · intro h
    have hany : ¬ (vs.any truthy = true) := by
      intro hb
      exact absurd (h Val.one ((any_truthy vs).1 hb)) (by simp)
    have hn : Val.null ∉ vs := fun hm => absurd (h Val.null hm) (by simp)
    simp [orGroupValue, hany, hn]

/-- Claim C2 witness: a 1 member dominates 0 and unknown members. -/
theorem or_group_clause_value_witness :
    orGroupValue [Val.zero, Val.one, Val.null] = Val.one :=
  (or_group_clause_value [Val.zero, Val.one, Val.null]).1 (by decide)

/-- Claim C3: after the exemption pass over an entity, every parcel's stored
exemptions_count equals the number of exemptions whose stored value is
exactly 1 (0 and unknown do not contribute), regardless of any count value
present before the pass: the count is reset to 0 first and every exemption is
evaluated in the one cursor pass. -/
theorem exemptions_count_consistency (parcels out : List (RowT × Nat))
    (h : calculate_exemptions parcels = Except.ok out) :
    ∀ p ∈ out, p.2 = exemptions.countP
      (fun ex => decide (getF p.1 (exemptionFieldName ex.1) = some Val.one)) := by
  intro p hp
  unfold calculate_exemptions at h
  obtain ⟨q, hq, hqe⟩ := processParcels_mem _ _ h p hp
  obtain ⟨q0, hq0, hq0eq⟩ := List.mem_map.1 hq
  have hnd : (exemptions.map (fun ex => exemptionFieldName ex.1)).Nodup := by decide
  have hc := processExemptions_count exemptions _ _ _ hqe hnd
  rw [← hq0eq] at hc
  simpa using hc

/-- Claim C3 witness: one parcel with every referenced requirement 1 and a
stale count of 7 ends with its count equal to the number of exemptions whose
stored value is 1. -/
theorem exemptions_count_consistency_witness :
    outAllOneHead.2 = exemptions.countP
      (fun ex => decide (getF outAllOneHead.1 (exemptionFieldName ex.1) = some Val.one)) :=
  exemptions_count_consistency [(rowAllOne, 7)] outAllOne (by rfl) outAllOneHead (by decide)

/-- Claim C6: if any parcel of the entity lacks the attribute of a
requirement referenced by some exemption, the exemption pass fails with the
message that names the missing attribute and directs the operator to the
no-data dictionary or to re-running the requirement computation, and the
whole run stops there: no later entity is processed. -/
theorem missing_attribute_fatal (parcels : List (RowT × Nat))
    (rest : List (List (RowT × Nat)))
    (h : ∃ p ∈ parcels, ∃ f ∈ referencedFieldNames, getF p.1 f = none) :
    ∃ f ∈ referencedFieldNames, (∃ p ∈ parcels, getF p.1 f = none)
      ∧ calculate_exemptions parcels = Except.error (missingFieldMsg f)
      ∧ missingFieldMsg f = missingPre ++ f ++ missingPost
      ∧ processCounties (parcels :: rest) = Except.error (missingFieldMsg f) := by
  have h2 : ∃ p ∈ parcels.map (fun p => (p.1, (0 : Nat))),
      ∃ f ∈ referencedFieldNames, getF p.1 f = none := by
    obtain ⟨p, hp, f, hf, hm⟩ := h
    exact ⟨(p.1, 0), List.mem_map_of_mem _ hp, f, hf, hm⟩
  obtain ⟨f, hf, ⟨p2, hp2, hm2⟩, herr⟩ := processParcels_error_of_missing _ h2
  have hcalc : calculate_exemptions parcels = Except.error (missingFieldMsg f) := by
    unfold calculate_exemptions
    exact herr
  obtain ⟨p0, hp0, hp0eq⟩ := List.mem_map.1 hp2
  refine ⟨f, hf, ⟨p0, hp0, ?_⟩, hcalc, rfl, ?_⟩
  · subst hp0eq
    exact hm2
  · simp [processCounties, hcalc]

/-- Claim C6 witness: a parcel with no attributes at all makes the exemption
pass fail with the missing-field message, and a run with a further entity
after it stops at that error. -/
theorem missing_attribute_fatal_witness :
    ∃ f ∈ referencedFieldNames, (∃ p ∈ [(([] : RowT), (3 : Nat))], getF p.1 f = none)
      ∧ calculate_exemptions [(([] : RowT), 3)] = Except.error (missingFieldMsg f)
      ∧ missingFieldMsg f = missingPre ++ f ++ missingPost
      ∧ processCounties ([(([] : RowT), 3)] :: [[(rowAllOne, 0)]])
          = Except.error (missingFieldMsg f) :=
  missing_attribute_fatal [([], 3)] [[(rowAllOne, 0)]] (by decide)

/-- Claim C7: a requirement id with no registered `calc_requirement_<id>`
method dispatches to `default_function`: the parcel feature class is left
unchanged, so an attribute that is NULL on every parcel stays NULL, and no
failure is raised (processing continues with the remaining requirements). -/
theorem unknown_requirement_noop (oracle : String → String → FC → FC)
    (rid : String) (fc : FC) (f : String) (h : rid ∉ registeredFunctionIds) :
    do_command oracle rid fc f = fc
    ∧ ((∀ row ∈ fc.rows, getF row f = some Val.null) →
        ∀ row ∈ (do_command oracle rid fc f).rows, getF row f = some Val.null) := by
  have hd : do_command oracle rid fc f = fc := by simp [do_command, h]
  exact ⟨hd, fun hnull => by rw [hd]; exact hnull⟩

/-- Claim C7 witness: the unregistered id "4.1" leaves the table unchanged. -/
theorem unknown_requirement_noop_witness :
    do_command (fun _ _ fc => fc) "4.1" (FC.mk [] [[]]) "x" = FC.mk [] [[]] :=
  (unknown_requirement_noop (fun _ _ fc => fc) "4.1" (FC.mk [] [[]]) "x" (by decide)).1

theorem foldl_addFieldTable_rows (fs : List String) (t : DevTable) :
    (fs.foldl addFieldTable t).rows = t.rows := by
  induction fs generalizing t with
  | nil => rfl
  | cons f rest ih =>
    rw [List.foldl_cons, ih]
    unfold addFieldTable
    split <;> rfl

theorem foldl_addFieldTable_cols_mono (fs : List String) (t : DevTable) (x : String)
    (hx : x ∈ t.cols) : x ∈ (fs.foldl addFieldTable t).cols := by
  induction fs generalizing t with
  | nil => exact hx
  | cons f rest ih =>
    rw [List.foldl_cons]
    apply ih
    unfold addFieldTable
    split
    · exact hx
    · exact List.mem_append_left _ hx

theorem foldl_addFieldTable_mem (fs : List String) (f : String) :
    ∀ t : DevTable, f ∈ fs → f ∈ (fs.foldl addFieldTable t).cols := by
  induction fs with
  | nil => intro t hf; cases hf
  | cons g rest ih =>
    intro t hf
    rw [List.foldl_cons]
    rcases List.mem_cons.1 hf with h | h
    · subst h
      apply foldl_addFieldTable_cols_mono
      unfold addFieldTable
      split
      next hmem => exact hmem
      next => exact List.mem_append_right _ (by simp)
    · exact ih _ h

/-- Claim C8: materializing into an existing destination table — the
requirements table and likewise the exemptions table — first adds every
requirement (resp. exemption) attribute present on the parcel table (hence in
particular every one absent from the destination) as a new nullable SHORT
column, existing columns are kept, and only then are the entity's rows
appended, so previously appended rows and their values are untouched. -/
theorem schema_reconciliation_on_append (sourceFields : List String) (newRows : List RowT)
    (t : DevTable) :
    ((∀ f ∈ sourceFields, f ∈ requirementFieldNames →
      f ∈ (create_requirements_table_append sourceFields newRows t).cols)
    ∧ (∀ f ∈ t.cols, f ∈ (create_requirements_table_append sourceFields newRows t).cols)
    ∧ (create_requirements_table_append sourceFields newRows t).rows = t.rows ++ newRows)
    ∧ ((∀ f ∈ sourceFields, f ∈ exemptionFieldNames →
      f ∈ (create_exemptions_table_append sourceFields newRows t).cols)
    ∧ (∀ f ∈ t.cols, f ∈ (create_exemptions_table_append sourceFields newRows t).cols)
    ∧ (create_exemptions_table_append sourceFields newRows t).rows = t.rows ++ newRows) := by
  refine ⟨⟨?_, ?_, ?_⟩, ?_, ?_, ?_⟩
  · intro f hf hreq
    unfold create_requirements_table_append append_rows reconcile_requirement_fields
    apply foldl_addFieldTable_mem
    refine List.mem_filter.2 ⟨hf, ?_⟩
    simpa using hreq
  · intro f hf
    unfold create_requirements_table_append append_rows reconcile_requirement_fields
    exact foldl_addFieldTable_cols_mono _ _ _ hf
  · unfold create_requirements_table_append append_rows reconcile_requirement_fields
    rw [foldl_addFieldTable_rows]
  · intro f hf hex
    unfold create_exemptions_table_append append_rows reconcile_exemption_fields
    apply foldl_addFieldTable_mem
    refine List.mem_filter.2 ⟨hf, ?_⟩
    simpa using hex
  · intro f hf
    unfold create_exemptions_table_append append_rows reconcile_exemption_fields
    exact foldl_addFieldTable_cols_mono _ _ _ hf
  · unfold create_exemptions_table_append append_rows reconcile_exemption_fields
    rw [foldl_addFieldTable_rows]

/-- Claim C8 witness: the source's "wetlands_8_1" requirement column and
"E_21099" exemption column, each absent from a destination table that only
has the parcel id column, are present after the respective materialization
steps. -/
theorem schema_reconciliation_on_append_witness :
    "wetlands_8_1" ∈ (create_requirements_table_append
      ["cbi_parcel_id_fips_apn_oid", "wetlands_8_1"] []
      (DevTable.mk ["cbi_parcel_id_fips_apn_oid"] [])).cols
    ∧ "E_21099" ∈ (create_exemptions_table_append
      ["cbi_parcel_id_fips_apn_oid", "E_21099"] []
      (DevTable.mk ["cbi_parcel_id_fips_apn_oid"] [])).cols :=
  ⟨(schema_reconciliation_on_append ["cbi_parcel_id_fips_apn_oid", "wetlands_8_1"] []
      (DevTable.mk ["cbi_parcel_id_fips_apn_oid"] [])).1.1 "wetlands_8_1"
      (by decide) (by decide),
   (schema_reconciliation_on_append ["cbi_parcel_id_fips_apn_oid", "E_21099"] []
      (DevTable.mk ["cbi_parcel_id_fips_apn_oid"] [])).2.1 "E_21099"
      (by decide) (by decide)⟩

/-- Claim C4: for every requirement in an entity's no-data list unioned with
the ALL_COUNTIES list, after a successful requirement pass the requirement's
attribute exists on the feature class and is NULL on every parcel, and the
external collaborator is never dispatched for that requirement — whatever the
collaborator would have written (any collaborator that touches only its own
target attribute). -/
theorem masking_dominance (oracle : String → String → FC → FC)
    (county : String) (reqs : List String) (fc fcOut : FC) (invOut : List String)
    (r f : String)
    (hOF : ∀ rid g fc2 x, x ∈ fc2.fields → x ∈ (oracle rid g fc2).fields)
    (hFr : ∀ rid g fc2 h2, h2 ≠ g →
      (oracle rid g fc2).rows.map (fun row => getF row h2)
        = fc2.rows.map (fun row => getF row h2))
    (hrun : calculate_requirements oracle county reqs fc = Except.ok (fcOut, invOut))
    (hr : r ∈ requirements_with_no_data_for county)
    (hf : lookupStr requirements r = some f) :
    (f ∈ fcOut.fields ∧ ∀ row ∈ fcOut.rows, getF row f = some Val.null)
    ∧ r ∉ invOut := by
  unfold calculate_requirements at hrun
  cases hc : lookupStr requirements_with_no_data county with
  | none => simp [hc] at hrun
  | some noDataCounty =>
    simp only [hc] at hrun
    cases hA : lookupStr requirements_with_no_data "ALL_COUNTIES" with
    | none => simp [hA] at hrun
    | some allCounties =>
      simp only [hA] at hrun
      cases hm : maskLoop (noDataCounty ++ allCounties) fc with
      | error e => simp [hm] at hrun
      | ok fc1 =>
        simp only [hm] at hrun
        have hrL : r ∈ noDataCounty ++ allCounties := by
          unfold requirements_with_no_data_for at hr
          rw [hc, hA] at hr
          simpa using hr
        have hN1 : NullEverywhere fc1 f := maskLoop_establishes _ _ _ hm r hrL f hf
        have hvalnd : (requirements.map (fun p => p.2)).Nodup := by decide
        have hne : ∀ r2 f2, r2 ∉ noDataCounty ++ allCounties →
            lookupStr requirements r2 = some f2 → f2 ≠ f := by
          intro r2 f2 hr2 hl2
          have hr2r : r2 ≠ r := fun he => hr2 (he ▸ hrL)
          exact lookupStr_values_ne requirements r2 r f2 f hvalnd hl2 hf hr2r
        obtain ⟨hNout, hinv⟩ :=
          mainLoop_preserves oracle hOF hFr _ f hne reqs fc1 [] fcOut invOut hrun hN1
        refine ⟨⟨hNout.1, hNout.2⟩, ?_⟩
        intro hrin
        rcases hinv r hrin with h1 | h1
        · simp at h1
        · exact h1 hrL

/-- Claim C4 witness: "monterey" masks "9.5"; with a collaborator that writes
1 everywhere, after a pass over "9.5" and "2.3" the landslide attribute is
NULL on every parcel and "9.5" was never dispatched. -/
theorem masking_dominance_witness :
    (("landslide_hazard_9_5" ∈ maskFcOutW.fields
      ∧ ∀ row ∈ maskFcOutW.rows, getF row "landslide_hazard_9_5" = some Val.null))
    ∧ "9.5" ∉ maskInvW :=
  masking_dominance oracle_one "monterey" ["9.5", "2.3"] (FC.mk [] [[]])
    maskFcOutW maskInvW "9.5" "landslide_hazard_9_5"
    (fun _ _ _ _ hx => hx)
    (fun rid g fc2 h2 hne => by
      show (fc2.rows.map (fun row => setField row g Val.one)).map (fun row => getF row h2)
        = fc2.rows.map (fun row => getF row h2)
      rw [List.map_map]
      refine List.map_congr_left ?_
      intro row hrow
      show getF (setField row g Val.one) h2 = getF row h2
      rw [getF_setField, if_neg hne])
    (by rfl) (by decide) (by decide)

/-- Claim C5: for an entity whose rows all carry its county name, the
purge-then-append materialization is idempotent (a second run over the same
inputs leaves the same final rows), and the result holds at most one row per
parcel key when the entity's rows have distinct keys and keys already in the
table that reoccur in the entity's rows belong to that county. -/
theorem materialize_entity_idempotent (county : String) (newRows : List DevRow)
    (table : Option (List DevRow))
    (hnew : ∀ r ∈ newRows, r.county_name = county)
    (hkeys : (newRows.map DevRow.parcel_id).Nodup)
    (hold : ∀ rows, table = some rows → (rows.map DevRow.parcel_id).Nodup ∧
      ∀ r ∈ rows, r.parcel_id ∈ newRows.map DevRow.parcel_id → r.county_name = county) :
    materialize_entity county newRows (materialize_entity county newRows table)
      = materialize_entity county newRows table
    ∧ ∀ rows2, materialize_entity county newRows table = some rows2 →
        (rows2.map DevRow.parcel_id).Nodup := by
  have hdel_new : delete_county_rows_from_dev_table county newRows = [] := by
    unfold delete_county_rows_from_dev_table
    refine List.filter_eq_nil_iff.2 ?_
    intro r hr
    simp [hnew r hr]
  constructor
  · cases table with
    | none =>
      simp only [materialize_entity]
      rw [hdel_new]
      rfl
    | some rows =>
      simp only [materialize_entity]
      unfold delete_county_rows_from_dev_table at *
      rw [List.filter_append, hdel_new, List.append_nil, List.filter_filter]
      simp
  · intro rows2 h2
    cases table with
    | none =>
      simp only [materialize_entity] at h2
      cases h2
      exact hkeys
    | some rows =>
      obtain ⟨hnd, hkc⟩ := hold rows rfl
      simp only [materialize_entity] at h2
      cases h2
      rw [List.map_append]
      refine List.nodup_append.2 ⟨?_, hkeys, ?_⟩
      · exact hnd.sublist ((List.filter_sublist rows).map DevRow.parcel_id)
      · intro x hx1 hx2
        obtain ⟨r, hr, hrx⟩ := List.mem_map.1 hx1
        have hrmem := List.mem_filter.1 hr
        have hcounty : r.county_name = county := by
          apply hkc r hrmem.1
          rw [hrx]
          exact hx2
        have := hrmem.2
        simp [hcounty] at this

/-- Claim C5 witness: re-running the "kern" entity over a table that already
holds its row from a prior run changes nothing. -/
theorem materialize_entity_idempotent_witness :
    materialize_entity "kern" [DevRow.mk "kern" "p1" []]
        (materialize_entity "kern" [DevRow.mk "kern" "p1" []]
          (some [DevRow.mk "yolo" "p2" [], DevRow.mk "kern" "p1" []]))
      = materialize_entity "kern" [DevRow.mk "kern" "p1" []]
          (some [DevRow.mk "yolo" "p2" [], DevRow.mk "kern" "p1" []]) :=
  (materialize_entity_idempotent "kern" [DevRow.mk "kern" "p1" []]
    (some [DevRow.mk "yolo" "p2" [], DevRow.mk "kern" "p1" []])
    (by decide) (by decide)
    (fun rows hr => by
      injection hr with h
      subst h
      exact ⟨by decide, by decide⟩)).1

theorem charListLe_total : ∀ a b : List Char, charListLe a b = true ∨ charListLe b a = true := by
  intro a
  induction a with
  | nil => intro b; left; rfl
  | cons x xs ih =>
    intro b
    cases b with
    | nil => right; rfl
    | cons y ys =>
      rcases Nat.lt_trichotomy x.toNat y.toNat with h | h | h
      · left; simp [charListLe, h]
      · have h1 : ¬ x.toNat < y.toNat := by omega
        have h2 : ¬ y.toNat < x.toNat := by omega
        rcases ih ys with hc | hc
        · left; simp [charListLe, h1, h2, hc]
        · right; simp [charListLe, h1, h2, hc]
      · right; simp [charListLe, h]

theorem charListLe_trans : ∀ a b c : List Char,
    charListLe a b = true → charListLe b c = true → charListLe a c = true := by
  intro a
  induction a with
  | nil => intro b c _ _; rfl
  | cons x xs ih =>
    intro b c hab hbc
    cases b with
    | nil => simp [charListLe] at hab
    | cons y ys =>
      cases c with
      | nil => simp [charListLe] at hbc
      | cons z zs =>
        by_cases hxy : x.toNat < y.toNat
        · by_cases hyz : y.toNat < z.toNat
          · simp [charListLe, Nat.lt_trans hxy hyz]
          · by_cases hzy : z.toNat < y.toNat
            · simp [charListLe, hyz, hzy] at hbc
            · have hxz : x.toNat < z.toNat := by omega
              simp [charListLe, hxz]
        · by_cases hyx : y.toNat < x.toNat
          · simp [charListLe, hxy, hyx] at hab
          · simp only [charListLe, if_neg hxy, if_neg hyx] at hab
            by_cases hyz : y.toNat < z.toNat
            · have hxz : x.toNat < z.toNat := by omega
              simp [charListLe, hxz]
            · by_cases hzy : z.toNat < y.toNat
              · simp [charListLe, hyz, hzy] at hbc
              · simp only [charListLe, if_neg hyz, if_neg hzy] at hbc
                have hxz : ¬ x.toNat < z.toNat := by omega
                have hzx : ¬ z.toNat < x.toNat := by omega
                simp [charListLe, hxz, hzx, ih ys zs hab hbc]

theorem pyStrLe_total (a b : String) : pyStrLe a b = true ∨ pyStrLe b a = true :=
  charListLe_total a.data b.data

theorem pyStrLe_trans (a b c : String) :
    pyStrLe a b = true → pyStrLe b c = true → pyStrLe a c = true :=
  charListLe_trans a.data b.data c.data

/-- Claim C9 counterexample: an explicit entity list is processed in the
given order, which for this input is not sorted by entity identifier. -/
theorem entity_order_counterexample :
    resolve_input_parcels_fc_list
        (FcSelection.explicitList ["SANBERNARDINO_Parcels", "SANBENITO_Parcels"]) []
      = ["SANBERNARDINO_Parcels", "SANBENITO_Parcels"]
    ∧ ¬ List.Sorted (fun a b : String => pyStrLe a b = true)
        ["SANBERNARDINO_Parcels", "SANBENITO_Parcels"] := by
  constructor
  · rfl
  · decide

/-- Claim C9 (amended): with the wildcard selection the entities are processed
in sorted order of their identifiers; an explicit list is processed in the
order given (the code sorts only the wildcard expansion). -/
theorem entity_order_amended (available l : List String) :
    List.Sorted (fun a b : String => pyStrLe a b = true)
      (resolve_input_parcels_fc_list FcSelection.star available)
    ∧ resolve_input_parcels_fc_list (FcSelection.explicitList l) available = l := by
  constructor
  · haveI : IsTotal String (fun a b => pyStrLe a b = true) := ⟨pyStrLe_total⟩
    haveI : IsTrans String (fun a b => pyStrLe a b = true) := ⟨pyStrLe_trans⟩
    exact List.sorted_insertionSort _ available
  · rfl

/-- Claim C10: requirement evaluation looks the county name up directly in the
no-data dictionary, so a county that is not a key fails with a KeyError before
any requirement is evaluated, while the spec's `is_masked` (empty-set default
unioned with ALL_ENTITIES) is total and simply reports nothing masked. -/
theorem no_data_lookup_requires_key (oracle : String → String → FC → FC)
    (county : String) (reqs : List String) (fc : FC)
    (h : lookupStr requirements_with_no_data county = none) :
    calculate_requirements oracle county reqs fc = Except.error (keyErrorMsg county)
    ∧ ∀ rid, is_masked_spec county rid = false := by
  constructor
  · unfold calculate_requirements
    rw [h]
  · intro rid
    unfold is_masked_spec
    rw [h]
    rfl

/-- Claim C10 witness: the unknown county name "sanmateo2" makes the
requirement pass fail with a KeyError. -/
theorem no_data_lookup_requires_key_witness :
    calculate_requirements (fun _ _ fc => fc) "sanmateo2" [] (FC.mk [] [])
      = Except.error (keyErrorMsg "sanmateo2") :=
  (no_data_lookup_requires_key (fun _ _ fc => fc) "sanmateo2" [] (FC.mk [] [])
    (by decide)).1

end CEQA
